import Mathlib

/-!
Shallow embedding of the session transaction-state cache
(`src/mongo/db/session.cpp`) and proofs about it.

The cache (`Session`) holds a validity flag, an invalidation counter,
the active transaction number and an optional last-written record; the
operations below are line-by-line translations of the corresponding C++
member functions.  External collaborators (the persisted record store,
the update executor, the transaction-history iterator) are modelled by
explicit parameters: the looked-up row, whether the persisted table
exists, the `UpdateResult` reported by the update executor, and the
backward chain of oplog entries produced by the history iterator.
-/

namespace SessionCacheSpec

/-- Transaction number (`TxnNumber`, a 64-bit signed integer). -/
abbrev TxnNumber := Int

/-- Statement identifier within a transaction (`StmtId`). -/
abbrev StmtId := Int

/-- Write position in the write-ahead log (`Timestamp`); `0` is the
null timestamp `Timestamp()`. -/
abbrev Timestamp := Nat

/-- Opaque session identifier (`LogicalSessionId`). -/
abbrev LogicalSessionId := Nat

/-- Modelled from the spec: the declaring header is not among the
repository's files; the spec describes an "uninitialized" sentinel that is
superseded by every admitted transaction number, realised as `-1`. -/
def kUninitializedTxnNumber : TxnNumber := -1

/-- The durable row: `{SessionIdentifier, TransactionNumber, WritePosition}`. -/
structure SessionTxnRecord where
  sessionId : LogicalSessionId
  txnNum : TxnNumber
  lastWriteOpTimeTs : Timestamp
deriving DecidableEq

/-- The in-memory per-session cache state: the fields of `class Session`
that its member functions read and mutate. -/
structure Session where
  sessionId : LogicalSessionId
  isValid : Bool
  numInvalidations : Nat
  activeTxnNumber : TxnNumber
  lastWrittenSessionRecord : Option SessionTxnRecord
deriving DecidableEq

/-- The error codes this file's operations raise via `uassert`/`throw`. -/
inductive SessionError where
  /-- `ErrorCodes::ConflictingOperationInProgress`. -/
  | conflictingOperationInProgress
  /-- `ErrorCodes::TransactionTooOld`. -/
  | transactionTooOld
  /-- `WriteConflictException`. -/
  | writeConflict
  /-- `uassert(40527, ...)`: the session transactions collection is missing. -/
  | sessionsCollectionMissing
deriving DecidableEq

/-- `Session::_checkValid`: `uassert(ConflictingOperationInProgress, ..., _isValid)`. -/
def checkValid (s : Session) : Option SessionError :=
  if s.isValid then none else some .conflictingOperationInProgress

/-- `Session::_checkIsActiveTransaction`:
`uassert(ConflictingOperationInProgress, ..., txnNumber == _activeTxnNumber)`. -/
def checkIsActiveTransaction (s : Session) (txnNumber : TxnNumber) : Option SessionError :=
  if txnNumber = s.activeTxnNumber then none else some .conflictingOperationInProgress

/-- `Session::_beginTxn`: check validity, then
`uassert(TransactionTooOld, ..., txnNumber >= _activeTxnNumber)`, then
return for a continuation, else advance `_activeTxnNumber`.  The second
component is the raised error, `none` on success; a `uassert` throw leaves
every field untouched, so the state component is the input state there. -/
def beginTxn (s : Session) (txnNumber : TxnNumber) : Session × Option SessionError :=
  match checkValid s with
  | some e => (s, some e)
  | none =>
    if ¬ txnNumber ≥ s.activeTxnNumber then (s, some .transactionTooOld)
    else if txnNumber = s.activeTxnNumber then (s, none)
    else ({ s with activeTxnNumber := txnNumber }, none)

/-- `Session::invalidate`: mark invalid, bump `_numInvalidations`, clear
`_lastWrittenSessionRecord`, reset `_activeTxnNumber`. -/
def invalidate (s : Session) : Session :=
  { s with
    isValid := false
    numInvalidations := s.numInvalidations + 1
    lastWrittenSessionRecord := none
    activeTxnNumber := kUninitializedTxnNumber }

/-- The re-locked tail of one iteration of the loop in
`Session::refreshFromStorageIfNeeded`: commit the looked-up row only if the
cache is still invalid and `_numInvalidations` still equals the snapshot
taken before unlocking.  The boolean reports whether the row was committed
(the `break` taken). -/
def refreshCommit (s : Session) (numInvalidationsSnapshot : Nat)
    (lastWrittenTxnRecord : Option SessionTxnRecord) : Session × Bool :=
  if ¬ s.isValid ∧ s.numInvalidations = numInvalidationsSnapshot then
    ({ s with
        isValid := true
        lastWrittenSessionRecord := lastWrittenTxnRecord
        activeTxnNumber :=
          match lastWrittenTxnRecord with
          | some r => r.txnNum
          | none => s.activeTxnNumber },
      true)
  else (s, false)

/-- The unlocked lookup inside `Session::refreshFromStorageIfNeeded`:
`DBDirectClient::findOne` against the session transactions collection.  A
query against a missing collection matches nothing, so the result is empty
(`boost::none`) whenever the collection does not exist. -/
def findOne (collectionExists : Bool) (storedRow : Option SessionTxnRecord) :
    Option SessionTxnRecord :=
  if collectionExists then storedRow else none

/-- `Session::refreshFromStorageIfNeeded` in the absence of concurrent
invalidations: if the cache is valid the loop body never runs; otherwise
the single iteration's lookup result is committed (the epoch cannot have
changed, so `refreshCommit` takes its first branch and the loop breaks). -/
def refreshFromStorageIfNeeded (s : Session) (collectionExists : Bool)
    (storedRow : Option SessionTxnRecord) : Session :=
  (refreshCommit s s.numInvalidations (findOne collectionExists storedRow)).1

/-- `Session::getLastWriteOpTimeTs`: validity and active-transaction checks,
then the cached write position, or `Timestamp()` when no record is cached
for this transaction number. -/
def getLastWriteOpTimeTs (s : Session) (txnNumber : TxnNumber) :
    Except SessionError Timestamp :=
  match checkValid s with
  | some e => .error e
  | none =>
    match checkIsActiveTransaction s txnNumber with
    | some e => .error e
    | none =>
      match s.lastWrittenSessionRecord with
      | none => .ok 0
      | some r => if r.txnNum ≠ txnNumber then .ok 0 else .ok r.lastWriteOpTimeTs

/-- The result of the update executor (`UpdateResult`): how many documents
the update modified, and whether the `upserted` id is the empty value. -/
structure UpdateResult where
  numDocsModified : Nat
  upsertedIsEmpty : Bool
deriving DecidableEq

/-- `updateSessionEntry` (file-local helper): fail with `uassert(40527, ...)`
when the session transactions collection is missing, run the update, and
throw `WriteConflictException` when it neither modified nor upserted. -/
def updateSessionEntry (collectionExists : Bool) (updateResult : UpdateResult) :
    Option SessionError :=
  if ¬ collectionExists then some .sessionsCollectionMissing
  else if updateResult.numDocsModified = 0 ∧ updateResult.upsertedIsEmpty then
    some .writeConflict
  else none

/-- The two shapes of request built by `Session::_makeUpdateRequest`: match
the full previous record and `$set` the new number/position, or upsert a
brand-new row. -/
inductive UpdateRequest where
  | matchPreviousRecord (previous : SessionTxnRecord) (newTxnNumber : TxnNumber)
      (newLastWriteTs : Timestamp)
  | upsertNewRecord (newRecord : SessionTxnRecord)
deriving DecidableEq

/-- `Session::_makeUpdateRequest`. -/
def makeUpdateRequest (s : Session) (newTxnNumber : TxnNumber)
    (newLastWriteTs : Timestamp) : UpdateRequest :=
  match s.lastWrittenSessionRecord with
  | some r => .matchPreviousRecord r newTxnNumber newLastWriteTs
  | none => .upsertNewRecord ⟨s.sessionId, newTxnNumber, newLastWriteTs⟩

/-- The data captured by the `onCommit` closure registered by
`Session::_registerUpdateCacheOnCommit`. -/
structure CommitHandler where
  newTxnNumber : TxnNumber
  stmtIdsWritten : List StmtId
  newLastWriteTs : Timestamp
deriving DecidableEq

/-- Everything `Session::onWriteOpCompletedOnPrimary` produces: the
in-memory cache state when the call returns (or throws), the raised error
if any, the update request sent to the persisted store, and the commit
handler registered on the caller's write unit of work (`none` when an
exception prevented registration). -/
structure OnWriteOutcome where
  cache : Session
  raised : Option SessionError
  request : Option UpdateRequest
  registered : Option CommitHandler
deriving DecidableEq

/-- `Session::onWriteOpCompletedOnPrimary`: `_checkValid`,
`_checkIsActiveTransaction`, `_makeUpdateRequest`, unlock,
`updateSessionEntry`, `_registerUpdateCacheOnCommit`.  No member field is
assigned anywhere on this path; the cache is only changed later, by the
registered commit handler, if the caller's write unit of work commits. -/
def onWriteOpCompletedOnPrimary (s : Session) (txnNumber : TxnNumber)
    (stmtIdsWritten : List StmtId) (newLastWriteTs : Timestamp)
    (collectionExists : Bool) (updateResult : UpdateResult) : OnWriteOutcome :=
  match checkValid s with
  | some e => ⟨s, some e, none, none⟩
  | none =>
    match checkIsActiveTransaction s txnNumber with
    | some e => ⟨s, some e, none, none⟩
    | none =>
      let req := makeUpdateRequest s txnNumber newLastWriteTs
      match updateSessionEntry collectionExists updateResult with
      | some e => ⟨s, some e, some req, none⟩
      | none => ⟨s, none, some req, some ⟨txnNumber, stmtIdsWritten, newLastWriteTs⟩⟩

/-- The `lastWrittenRecord` merge at the end of the commit handler in
`Session::_registerUpdateCacheOnCommit`: emplace a fresh record when none
is cached, else raise `txnNum` and `lastWriteOpTimeTs` only when the new
values are strictly greater. -/
def mergeLastWrittenRecord (sessionId : LogicalSessionId)
    (cached : Option SessionTxnRecord) (newTxnNumber : TxnNumber)
    (newLastWriteTs : Timestamp) : SessionTxnRecord :=
  match cached with
  | none => ⟨sessionId, newTxnNumber, newLastWriteTs⟩
  | some r =>
    let r1 := if newTxnNumber > r.txnNum then { r with txnNum := newTxnNumber } else r
    if newLastWriteTs > r1.lastWriteOpTimeTs then
      { r1 with lastWriteOpTimeTs := newLastWriteTs }
    else r1

/-- The commit handler registered by `Session::_registerUpdateCacheOnCommit`,
run when the caller's write unit of work durably commits: return unchanged
if the cache is no longer valid or `newTxnNumber` is below the active
transaction number; otherwise re-admit `newTxnNumber` via `_beginTxn` and
merge the last-written record. -/
def updateCacheOnCommit (s : Session) (newTxnNumber : TxnNumber)
    (newLastWriteTs : Timestamp) : Session :=
  if ¬ s.isValid then s
  else if newTxnNumber < s.activeTxnNumber then s
  else
    let s1 := (beginTxn s newTxnNumber).1
    { s1 with
      lastWrittenSessionRecord :=
        some (mergeLastWrittenRecord s.sessionId s1.lastWrittenSessionRecord
          newTxnNumber newLastWriteTs) }

/-- One oplog entry as seen by the backward walk in
`Session::checkStatementExecuted`: its optional statement id, plus an
opaque payload standing for the rest of the entry. -/
structure OplogEntry where
  statementId : Option StmtId
  payload : Nat
deriving DecidableEq

/-- Outcome of the backward walk: the matching entry, `boost::none`, or the
`invariant(entry.getStatementId())` failure (a process abort in the source). -/
inductive WalkResult where
  | found (entry : OplogEntry)
  | notFound
  | invariantFailure
deriving DecidableEq

/-- The `while (it.hasNext())` loop of `Session::checkStatementExecuted`,
over the backward chain of entries the `TransactionHistoryIterator`
yields: assert each entry carries a statement id, return the first entry
whose statement id matches, else `boost::none`. -/
def walkHistory (stmtId : StmtId) : List OplogEntry → WalkResult
  | [] => .notFound
  | entry :: rest =>
    match entry.statementId with
    | none => .invariantFailure
    | some sid => if sid = stmtId then .found entry else walkHistory stmtId rest

/-- `Session::checkStatementExecuted`: validity and active-transaction
checks, `boost::none` when no record is cached for this transaction, else
walk the history chain starting at the cached write position. -/
def checkStatementExecuted (s : Session) (txnNumber : TxnNumber) (stmtId : StmtId)
    (history : Timestamp → List OplogEntry) : Except SessionError WalkResult :=
  match checkValid s with
  | some e => .error e
  | none =>
    match checkIsActiveTransaction s txnNumber with
    | some e => .error e
    | none =>
      match s.lastWrittenSessionRecord with
      | none => .ok .notFound
      | some r =>
        if r.txnNum ≠ txnNumber then .ok .notFound
        else .ok (walkHistory stmtId (history r.lastWriteOpTimeTs))

/-- Invariant I2: a cached last-written record's transaction number never
exceeds the active transaction number. -/
def I2 (s : Session) : Prop :=
  ∀ r, s.lastWrittenSessionRecord = some r → r.txnNum ≤ s.activeTxnNumber

/-- A sample valid cache with active transaction 5 and no cached record. -/
def sessionValidAt5 : Session := ⟨7, true, 0, 5, none⟩

/-- A sample valid cache with active transaction 5 and a cached record for
transaction 3 at write position 50. -/
def sessionValidWithRecord : Session := ⟨7, true, 2, 5, some ⟨7, 3, 50⟩⟩

/-- A sample freshly invalidated cache. -/
def sessionInvalidFresh : Session := ⟨7, false, 0, kUninitializedTxnNumber, none⟩

theorem beginTxn_of_invalid (s : Session) (n : TxnNumber) (h : s.isValid = false) :
    beginTxn s n = (s, some .conflictingOperationInProgress) := by
  simp [beginTxn, checkValid, h]

theorem beginTxn_of_lt (s : Session) (n : TxnNumber) (hv : s.isValid = true)
    (hlt : n < s.activeTxnNumber) :
    beginTxn s n = (s, some .transactionTooOld) := by
  simp [beginTxn, checkValid, hv, not_le.mpr hlt]

theorem beginTxn_result_of_ge (s : Session) (n : TxnNumber) (hv : s.isValid = true)
    (hge : s.activeTxnNumber ≤ n) :
    beginTxn s n = ({ s with activeTxnNumber := n }, none) := by
  by_cases heq : n = s.activeTxnNumber
  · subst heq
    show beginTxn s s.activeTxnNumber = (s, none)
    simp [beginTxn, checkValid, hv]
  · simp [beginTxn, checkValid, hv, heq, hge]

theorem beginTxn_fst_fields (s : Session) (n : TxnNumber) :
    (beginTxn s n).1.isValid = s.isValid ∧
    (beginTxn s n).1.lastWrittenSessionRecord = s.lastWrittenSessionRecord ∧
    (beginTxn s n).1.sessionId = s.sessionId ∧
    (beginTxn s n).1.numInvalidations = s.numInvalidations := by
  by_cases hv : s.isValid = true
  · rcases le_or_lt s.activeTxnNumber n with hge | hlt
    · rw [beginTxn_result_of_ge s n hv hge]
      exact ⟨rfl, rfl, rfl, rfl⟩
    · rw [beginTxn_of_lt s n hv hlt]
      exact ⟨rfl, rfl, rfl, rfl⟩
  · rw [beginTxn_of_invalid s n (by simpa using hv)]
    exact ⟨rfl, rfl, rfl, rfl⟩

theorem le_beginTxn_active (s : Session) (n : TxnNumber) :
    s.activeTxnNumber ≤ (beginTxn s n).1.activeTxnNumber := by
  by_cases hv : s.isValid = true
  · rcases le_or_lt s.activeTxnNumber n with hge | hlt
    · rw [beginTxn_result_of_ge s n hv hge]
      exact hge
    · rw [beginTxn_of_lt s n hv hlt]
  · rw [beginTxn_of_invalid s n (by simpa using hv)]

/-- C1: `beginTxn` requires a valid cache (else it fails with
`ConflictingOperationInProgress`); on a valid cache a number below the
active transaction number fails with `TransactionTooOld` and leaves the
state unchanged, the active number itself succeeds with no state change,
and a greater number succeeds and advances `activeTxnNumber` to it. -/
theorem beginTxn_spec (s : Session) (n : TxnNumber) :
    (s.isValid = false → beginTxn s n = (s, some .conflictingOperationInProgress)) ∧
    (s.isValid = true → n < s.activeTxnNumber →
      beginTxn s n = (s, some .transactionTooOld)) ∧
    (s.isValid = true → n = s.activeTxnNumber → beginTxn s n = (s, none)) ∧
    (s.isValid = true → s.activeTxnNumber < n →
      beginTxn s n = ({ s with activeTxnNumber := n }, none)) := by
  refine ⟨fun h => beginTxn_of_invalid s n h,
    fun hv hlt => beginTxn_of_lt s n hv hlt, fun hv heq => ?_,
    fun hv hlt => beginTxn_result_of_ge s n hv hlt.le⟩
  subst heq
  exact beginTxn_result_of_ge s s.activeTxnNumber hv le_rfl

/-- Witness for C1 at concrete inputs: old number fails and changes
nothing, equal number is a no-op, greater number advances, invalid cache
is rejected. -/
theorem beginTxn_spec_witness :
    beginTxn sessionValidAt5 3 = (sessionValidAt5, some .transactionTooOld) ∧
    beginTxn sessionValidAt5 5 = (sessionValidAt5, none) ∧
    beginTxn sessionValidAt5 9 = ({ sessionValidAt5 with activeTxnNumber := 9 }, none) ∧
    beginTxn sessionInvalidFresh 9 =
      (sessionInvalidFresh, some .conflictingOperationInProgress) :=
  ⟨(beginTxn_spec sessionValidAt5 3).2.1 rfl (by decide),
   (beginTxn_spec sessionValidAt5 5).2.2.1 rfl (by decide),
   (beginTxn_spec sessionValidAt5 9).2.2.2 rfl (by decide),
   (beginTxn_spec sessionInvalidFresh 9).1 rfl⟩

/-- C2: `onWriteOpCompletedOnPrimary` itself never mutates the in-memory
cache: on every path (success or any failure) the cache state when the
call returns equals the input state field for field, so if the registered
commit handler never runs — the caller's storage-write scope never
commits — `isValid`, `activeTxnNumber` and `lastWrittenSessionRecord` are
exactly as before the call. -/
theorem onWriteOpCompletedOnPrimary_frame (s : Session) (txnNumber : TxnNumber)
    (stmtIdsWritten : List StmtId) (newLastWriteTs : Timestamp)
    (collectionExists : Bool) (updateResult : UpdateResult) :
    (onWriteOpCompletedOnPrimary s txnNumber stmtIdsWritten newLastWriteTs
        collectionExists updateResult).cache = s ∧
    (onWriteOpCompletedOnPrimary s txnNumber stmtIdsWritten newLastWriteTs
        collectionExists updateResult).cache.isValid = s.isValid ∧
    (onWriteOpCompletedOnPrimary s txnNumber stmtIdsWritten newLastWriteTs
        collectionExists updateResult).cache.activeTxnNumber = s.activeTxnNumber ∧
    (onWriteOpCompletedOnPrimary s txnNumber stmtIdsWritten newLastWriteTs
        collectionExists updateResult).cache.lastWrittenSessionRecord =
      s.lastWrittenSessionRecord := by
  have h : (onWriteOpCompletedOnPrimary s txnNumber stmtIdsWritten newLastWriteTs
      collectionExists updateResult).cache = s := by
    unfold onWriteOpCompletedOnPrimary
    cases checkValid s <;>
      [skip; rfl]
    cases checkIsActiveTransaction s txnNumber <;>
      [skip; rfl]
    cases updateSessionEntry collectionExists updateResult <;> rfl
  exact ⟨h, by rw [h], by rw [h], by rw [h]⟩

/-- C7: `getLastWriteOpTimeTs` fails with `ConflictingOperationInProgress`
when the cache is invalid or the number is not the active transaction;
otherwise it returns the null timestamp when no record is cached or the
cached record's transaction number differs, and the cached write position
when the record is for the requested transaction. -/
theorem getLastWriteOpTimeTs_spec (s : Session) (n : TxnNumber) :
    (s.isValid = false →
      getLastWriteOpTimeTs s n = .error .conflictingOperationInProgress) ∧
    (s.isValid = true → n ≠ s.activeTxnNumber →
      getLastWriteOpTimeTs s n = .error .conflictingOperationInProgress) ∧
    (s.isValid = true → n = s.activeTxnNumber →
      s.lastWrittenSessionRecord = none → getLastWriteOpTimeTs s n = .ok 0) ∧
    (s.isValid = true → n = s.activeTxnNumber →
      ∀ r, s.lastWrittenSessionRecord = some r →
        (r.txnNum ≠ n → getLastWriteOpTimeTs s n = .ok 0) ∧
        (r.txnNum = n → getLastWriteOpTimeTs s n = .ok r.lastWriteOpTimeTs)) := by
  refine ⟨fun hv => ?_, fun hv hne => ?_, fun hv heq hnone => ?_,
    fun hv heq r hr => ⟨fun hne => ?_, fun hre => ?_⟩⟩
  · simp [getLastWriteOpTimeTs, checkValid, hv]
  · simp [getLastWriteOpTimeTs, checkValid, checkIsActiveTransaction, hv, hne]
  · simp [getLastWriteOpTimeTs, checkValid, checkIsActiveTransaction, hv, heq, hnone]
  · subst heq
    simp [getLastWriteOpTimeTs, checkValid, checkIsActiveTransaction, hv, hr, hne]
  · subst heq
    simp [getLastWriteOpTimeTs, checkValid, checkIsActiveTransaction, hv, hr, hre]

/-- Witness for C7 at concrete inputs: a record cached for an older
transaction yields the null timestamp, and an invalid cache is rejected. -/
theorem getLastWriteOpTimeTs_spec_witness :
    getLastWriteOpTimeTs sessionValidWithRecord 5 = .ok 0 ∧
    getLastWriteOpTimeTs sessionInvalidFresh 5 =
      .error .conflictingOperationInProgress :=
  ⟨((getLastWriteOpTimeTs_spec sessionValidWithRecord 5).2.2.2 rfl rfl
      ⟨7, 3, 50⟩ rfl).1 (by decide),
   (getLastWriteOpTimeTs_spec sessionInvalidFresh 5).1 rfl⟩

theorem mergeLastWrittenRecord_some (sessionId : LogicalSessionId)
    (r : SessionTxnRecord) (n : TxnNumber) (ts : Timestamp) :
    mergeLastWrittenRecord sessionId (some r) n ts =
      { r with
        txnNum := max r.txnNum n
        lastWriteOpTimeTs := max r.lastWriteOpTimeTs ts } := by
  rcases r with ⟨rs, rt, rts⟩
  unfold mergeLastWrittenRecord
  by_cases h1 : rt < n
  · by_cases h2 : rts < ts
    · simp [h1, h2, max_eq_right h1.le, max_eq_right h2.le]
    · simp [h1, h2, max_eq_right h1.le, max_eq_left (not_lt.mp h2)]
  · by_cases h2 : rts < ts
    · simp [h1, h2, max_eq_left (not_lt.mp h1), max_eq_right h2.le]
    · simp [h1, h2, max_eq_left (not_lt.mp h1), max_eq_left (not_lt.mp h2)]

theorem le_mergeLastWrittenRecord (sessionId : LogicalSessionId)
    (cached : Option SessionTxnRecord) (n : TxnNumber) (ts : Timestamp) :
    n ≤ (mergeLastWrittenRecord sessionId cached n ts).txnNum ∧
    ts ≤ (mergeLastWrittenRecord sessionId cached n ts).lastWriteOpTimeTs := by
  cases cached with
  | none => exact ⟨le_rfl, le_rfl⟩
  | some r =>
    rw [mergeLastWrittenRecord_some]
    exact ⟨le_max_right _ _, le_max_right _ _⟩

theorem mergeLastWrittenRecord_of_le (sessionId : LogicalSessionId)
    (r : SessionTxnRecord) (n : TxnNumber) (ts : Timestamp)
    (h1 : n ≤ r.txnNum) (h2 : ts ≤ r.lastWriteOpTimeTs) :
    mergeLastWrittenRecord sessionId (some r) n ts = r := by
  rw [mergeLastWrittenRecord_some]
  rcases r with ⟨rs, rt, rts⟩
  simp only [SessionTxnRecord.mk.injEq] at h1 h2 ⊢
  simp [max_eq_left h1, max_eq_left h2]

theorem mergeLastWrittenRecord_txnNum_le (sessionId : LogicalSessionId)
    (cached : Option SessionTxnRecord) (n : TxnNumber) (ts : Timestamp)
    (hb : ∀ r0, cached = some r0 → r0.txnNum ≤ n) :
    (mergeLastWrittenRecord sessionId cached n ts).txnNum ≤ n := by
  cases cached with
  | none => exact le_rfl
  | some r0 =>
    rw [mergeLastWrittenRecord_some]
    exact max_le (hb r0 rfl) le_rfl

theorem updateCacheOnCommit_of_invalid (s : Session) (n : TxnNumber)
    (ts : Timestamp) (hv : s.isValid = false) :
    updateCacheOnCommit s n ts = s := by
  simp [updateCacheOnCommit, hv]

theorem updateCacheOnCommit_of_lt (s : Session) (n : TxnNumber) (ts : Timestamp)
    (hlt : n < s.activeTxnNumber) :
    updateCacheOnCommit s n ts = s := by
  unfold updateCacheOnCommit
  split
  · rfl
  · simp [hlt]

theorem updateCacheOnCommit_of_ge (s : Session) (n : TxnNumber) (ts : Timestamp)
    (hv : s.isValid = true) (hge : s.activeTxnNumber ≤ n) :
    updateCacheOnCommit s n ts =
      { s with
        activeTxnNumber := n
        lastWrittenSessionRecord :=
          some (mergeLastWrittenRecord s.sessionId s.lastWrittenSessionRecord n ts) } := by
  simp [updateCacheOnCommit, hv, not_lt.mpr hge, beginTxn_result_of_ge s n hv hge]

/-- C3: the merge performed by the commit handler is monotone: with a
record cached, the merged record's transaction number is the maximum of
its old value and the handler's number, its write position the maximum of
its old value and the handler's position, so neither field ever
decreases; hence two committed handlers for transaction 5 with positions
100 and 200 leave the cached position at 200 in either order. -/
theorem mergeLastWrittenRecord_monotone :
    (∀ (sessionId : LogicalSessionId) (r : SessionTxnRecord) (n : TxnNumber)
        (ts : Timestamp),
      mergeLastWrittenRecord sessionId (some r) n ts =
        { r with
          txnNum := max r.txnNum n
          lastWriteOpTimeTs := max r.lastWriteOpTimeTs ts } ∧
      r.txnNum ≤ (mergeLastWrittenRecord sessionId (some r) n ts).txnNum ∧
      r.lastWriteOpTimeTs ≤
        (mergeLastWrittenRecord sessionId (some r) n ts).lastWriteOpTimeTs) ∧
    (updateCacheOnCommit (updateCacheOnCommit sessionValidAt5 5 100) 5
        200).lastWrittenSessionRecord = some ⟨7, 5, 200⟩ ∧
    (updateCacheOnCommit (updateCacheOnCommit sessionValidAt5 5 200) 5
        100).lastWrittenSessionRecord = some ⟨7, 5, 200⟩ := by
  refine ⟨fun sessionId r n ts => ?_, by decide, by decide⟩
  rw [mergeLastWrittenRecord_some]
  exact ⟨rfl, le_max_left _ _, le_max_left _ _⟩

/-- C9: the commit handler is idempotent: running it twice with the same
`(newTxnNumber, newLastWriteTs)` leaves exactly the cache state a single
run produces, whatever the starting state. -/
theorem updateCacheOnCommit_idem (s : Session) (n : TxnNumber) (ts : Timestamp) :
    updateCacheOnCommit (updateCacheOnCommit s n ts) n ts =
      updateCacheOnCommit s n ts := by
  by_cases hv : s.isValid = true
  · rcases le_or_lt s.activeTxnNumber n with hge | hlt
    · have h1 := updateCacheOnCommit_of_ge s n ts hv hge
      rw [h1]
      have h2 := updateCacheOnCommit_of_ge
        { s with
          activeTxnNumber := n
          lastWrittenSessionRecord :=
            some (mergeLastWrittenRecord s.sessionId s.lastWrittenSessionRecord n ts) }
        n ts hv le_rfl
      rw [h2]
      have h3 := le_mergeLastWrittenRecord s.sessionId s.lastWrittenSessionRecord n ts
      rw [mergeLastWrittenRecord_of_le _ _ _ _ h3.1 h3.2]
    · have h := updateCacheOnCommit_of_lt s n ts hlt
      rw [h]
      exact h
  · have h := updateCacheOnCommit_of_invalid s n ts (by simpa using hv)
    rw [h]
    exact h

/-- C4: invariant I2 — a cached record's transaction number never exceeds
the active transaction number — is preserved by the refresh commit,
`beginTxn`, the commit handler, and `invalidate`. -/
theorem I2_preserved (s : Session) (h : I2 s) (snap : Nat)
    (rec : Option SessionTxnRecord) (n : TxnNumber) (ts : Timestamp) :
    I2 (refreshCommit s snap rec).1 ∧ I2 (beginTxn s n).1 ∧
    I2 (updateCacheOnCommit s n ts) ∧ I2 (invalidate s) := by
  refine ⟨?_, ?_, ?_, ?_⟩
  · unfold refreshCommit
    split
    · cases rec with
      | none =>
        intro r hr
        exact absurd hr (by simp)
      | some r0 =>
        intro r hr
        have hr0 : r0 = r := Option.some.inj hr
        subst hr0
        exact le_rfl
    · exact h
  · intro r hr
    rw [(beginTxn_fst_fields s n).2.1] at hr
    exact (h r hr).trans (le_beginTxn_active s n)
  · by_cases hv : s.isValid = true
    · rcases le_or_lt s.activeTxnNumber n with hge | hlt
      · rw [updateCacheOnCommit_of_ge s n ts hv hge]
        intro r hr
        have hr' : mergeLastWrittenRecord s.sessionId s.lastWrittenSessionRecord n ts = r := by
          simpa using hr
        rw [← hr']
        exact mergeLastWrittenRecord_txnNum_le s.sessionId s.lastWrittenSessionRecord n ts
          (fun r0 h0 => (h r0 h0).trans hge)
      · rw [updateCacheOnCommit_of_lt s n ts hlt]
        exact h
    · rw [updateCacheOnCommit_of_invalid s n ts (by simpa using hv)]
      exact h
  · intro r hr
    exact absurd hr (by simp [invalidate])

/-- I2 holds of the sample state `sessionValidWithRecord`. -/
theorem I2_sessionValidWithRecord : I2 sessionValidWithRecord := by
  intro r hr
  have hr' : (⟨7, 3, 50⟩ : SessionTxnRecord) = r := Option.some.inj hr
  rw [← hr']
  decide

/-- Witness for C4 at a concrete state satisfying I2. -/
theorem I2_preserved_witness :
    I2 (refreshCommit sessionValidWithRecord 0 none).1 ∧
    I2 (beginTxn sessionValidWithRecord 9).1 ∧
    I2 (updateCacheOnCommit sessionValidWithRecord 9 100) ∧
    I2 (invalidate sessionValidWithRecord) :=
  I2_preserved sessionValidWithRecord I2_sessionValidWithRecord 0 none 9 100

/-- C5: when the persisted upsert reports zero modified documents and an
empty upserted id, `onWriteOpCompletedOnPrimary` fails with
`WriteConflictException`, registers no commit handler, and leaves every
in-memory cache field unchanged. -/
theorem onWriteOpCompletedOnPrimary_writeConflict (s : Session) (n : TxnNumber)
    (stmtIdsWritten : List StmtId) (ts : Timestamp) (res : UpdateResult)
    (hv : s.isValid = true) (ha : n = s.activeTxnNumber)
    (h0 : res.numDocsModified = 0) (he : res.upsertedIsEmpty = true) :
    onWriteOpCompletedOnPrimary s n stmtIdsWritten ts true res =
      ⟨s, some .writeConflict, some (makeUpdateRequest s n ts), none⟩ := by
  simp [onWriteOpCompletedOnPrimary, checkValid, checkIsActiveTransaction,
    updateSessionEntry, hv, ha, h0, he]

/-- Witness for C5 at a concrete input: zero documents modified, empty
upserted id. -/
theorem onWriteOpCompletedOnPrimary_writeConflict_witness :
    onWriteOpCompletedOnPrimary sessionValidAt5 5 [0] 100 true ⟨0, true⟩ =
      ⟨sessionValidAt5, some .writeConflict,
        some (makeUpdateRequest sessionValidAt5 5 100), none⟩ :=
  onWriteOpCompletedOnPrimary_writeConflict sessionValidAt5 5 [0] 100 ⟨0, true⟩
    rfl rfl rfl rfl

/-- C6: a refresh iteration commits its looked-up row only if, at lock
re-acquisition, the cache is still invalid and the invalidation counter
equals the snapshot taken before the unlocked lookup; when it does not
commit, the state is untouched (the loop retries); and after an
intervening `invalidate` the counter exceeds any snapshot taken no later
than it, so the looked-up row is discarded and the cache remains
invalid. -/
theorem refreshCommit_epoch_guard :
    (∀ (s : Session) (snap : Nat) (rec : Option SessionTxnRecord),
      ((refreshCommit s snap rec).2 = true ↔
        (s.isValid = false ∧ s.numInvalidations = snap)) ∧
      ((refreshCommit s snap rec).2 = false → (refreshCommit s snap rec).1 = s)) ∧
    (∀ (u : Session) (snap : Nat) (rec : Option SessionTxnRecord),
      snap ≤ u.numInvalidations →
        refreshCommit (invalidate u) snap rec = (invalidate u, false) ∧
        (invalidate u).isValid = false) := by
  constructor
  · intro s snap rec
    unfold refreshCommit
    by_cases hc : ¬ s.isValid = true ∧ s.numInvalidations = snap
    · rw [if_pos hc]
      exact ⟨⟨fun _ => ⟨by simpa using hc.1, hc.2⟩, fun _ => rfl⟩,
        fun hf => absurd hf (by simp)⟩
    · rw [if_neg hc]
      refine ⟨⟨fun ht => absurd ht (by simp), fun hcond => ?_⟩, fun _ => rfl⟩
      exact absurd ⟨by simp [hcond.1], hcond.2⟩ hc
  · intro u snap rec hle
    have hne : ¬ (invalidate u).numInvalidations = snap := by
      have hnum : (invalidate u).numInvalidations = u.numInvalidations + 1 := rfl
      omega
    constructor
    · unfold refreshCommit
      rw [if_neg (fun hcond => hne hcond.2)]
    · rfl

/-- Witness for C6 at concrete inputs: a valid cache rejects the commit
and is untouched, and a freshly invalidated cache rejects a pre-bump
snapshot and stays invalid. -/
theorem refreshCommit_epoch_guard_witness :
    (refreshCommit sessionValidAt5 0 none).1 = sessionValidAt5 ∧
    refreshCommit (invalidate sessionInvalidFresh) 0 none =
      (invalidate sessionInvalidFresh, false) ∧
    (invalidate sessionInvalidFresh).isValid = false :=
  ⟨(refreshCommit_epoch_guard.1 sessionValidAt5 0 none).2 (by decide),
   (refreshCommit_epoch_guard.2 sessionInvalidFresh 0 none (by decide)).1,
   (refreshCommit_epoch_guard.2 sessionInvalidFresh 0 none (by decide)).2⟩

/-- C8 counterexample: with the persisted table missing,
`refreshFromStorageIfNeeded` does not fail — the lookup returns nothing,
the refresh succeeds and marks the cache valid with no record, exactly
the behaviour the claim excludes. -/
theorem refresh_missing_table_counterexample :
    (refreshFromStorageIfNeeded sessionInvalidFresh false none).isValid = true ∧
    (refreshFromStorageIfNeeded sessionInvalidFresh false
        none).lastWrittenSessionRecord = none := by
  decide

/-- C8 amended: the missing persisted table is reported as a fatal
configuration error (`uassert` 40527) by the write path —
`updateSessionEntry`, hence `onWriteOpCompletedOnPrimary` — while
`refreshFromStorageIfNeeded` performs no existence check: its lookup
returns nothing and the refresh succeeds, marking the cache valid with no
record. -/
theorem missing_table_spec :
    (∀ res : UpdateResult,
      updateSessionEntry false res = some .sessionsCollectionMissing) ∧
    (∀ (s : Session) (n : TxnNumber) (stmtIdsWritten : List StmtId)
        (ts : Timestamp) (res : UpdateResult),
      s.isValid = true → n = s.activeTxnNumber →
        onWriteOpCompletedOnPrimary s n stmtIdsWritten ts false res =
          ⟨s, some .sessionsCollectionMissing,
            some (makeUpdateRequest s n ts), none⟩) ∧
    (∀ (s : Session) (storedRow : Option SessionTxnRecord),
      s.isValid = false →
        (refreshFromStorageIfNeeded s false storedRow).isValid = true ∧
        (refreshFromStorageIfNeeded s false
            storedRow).lastWrittenSessionRecord = none) := by
  refine ⟨fun res => by simp [updateSessionEntry],
    fun s n stmtIdsWritten ts res hv ha => ?_, fun s storedRow hv => ?_⟩
  · simp [onWriteOpCompletedOnPrimary, checkValid, checkIsActiveTransaction,
      updateSessionEntry, hv, ha]
  · unfold refreshFromStorageIfNeeded findOne refreshCommit
    rw [if_pos ⟨by simp [hv], rfl⟩]
    exact ⟨rfl, rfl⟩

/-- Witness for C8's amended statement at concrete inputs. -/
theorem missing_table_spec_witness :
    updateSessionEntry false ⟨1, false⟩ = some .sessionsCollectionMissing ∧
    onWriteOpCompletedOnPrimary sessionValidAt5 5 [0] 100 false ⟨1, false⟩ =
      ⟨sessionValidAt5, some .sessionsCollectionMissing,
        some (makeUpdateRequest sessionValidAt5 5 100), none⟩ ∧
    (refreshFromStorageIfNeeded sessionInvalidFresh false (some ⟨9, 4, 60⟩)).isValid = true ∧
    (refreshFromStorageIfNeeded sessionInvalidFresh false
        (some ⟨9, 4, 60⟩)).lastWrittenSessionRecord = none :=
  ⟨missing_table_spec.1 ⟨1, false⟩,
   missing_table_spec.2.1 sessionValidAt5 5 [0] 100 ⟨1, false⟩ rfl rfl,
   (missing_table_spec.2.2 sessionInvalidFresh (some ⟨9, 4, 60⟩) rfl).1,
   (missing_table_spec.2.2 sessionInvalidFresh (some ⟨9, 4, 60⟩) rfl).2⟩

theorem walkHistory_all_some (stmtId : StmtId) (chain : List OplogEntry)
    (hall : ∀ e ∈ chain, e.statementId.isSome = true) :
    walkHistory stmtId chain ≠ .invariantFailure ∧
    ((∃ e, walkHistory stmtId chain = .found e ∧ e.statementId = some stmtId) ∨
      walkHistory stmtId chain = .notFound) := by
  induction chain with
  | nil => simp [walkHistory]
  | cons e rest ih =>
    obtain ⟨sid, hsid⟩ := Option.isSome_iff_exists.mp (hall e (by simp))
    by_cases hs : sid = stmtId
    · subst hs
      refine ⟨?_, Or.inl ⟨e, ?_, hsid⟩⟩ <;> simp [walkHistory, hsid]
    · have hrest := ih (fun x hx => hall x (by simp [hx]))
      constructor
      · simpa [walkHistory, hsid, hs] using hrest.1
      · rcases hrest.2 with ⟨x, hx1, hx2⟩ | hnf
        · exact Or.inl ⟨x, by simpa [walkHistory, hsid, hs] using hx1, hx2⟩
        · exact Or.inr (by simpa [walkHistory, hsid, hs] using hnf)

theorem walkHistory_notFound_all_some (stmtId : StmtId) (chain : List OplogEntry)
    (hnf : walkHistory stmtId chain = .notFound) :
    ∀ e ∈ chain, e.statementId.isSome = true := by
  induction chain with
  | nil => simp
  | cons e rest ih =>
    cases hsid : e.statementId with
    | none =>
      simp only [walkHistory, hsid] at hnf
      exact absurd hnf (by simp)
    | some sid =>
      simp only [walkHistory, hsid] at hnf
      by_cases hs : sid = stmtId
      · rw [if_pos hs] at hnf
        exact absurd hnf (by simp)
      · rw [if_neg hs] at hnf
        intro x hx
        rcases List.mem_cons.mp hx with hx | hx
        · rw [hx, hsid]
          rfl
        · exact ih hnf x hx

/-- C10: the backward walk of `checkStatementExecuted` asserts that every
visited oplog entry carries a statement id: when every entry of the chain
has one, the assertion branch is unreachable and the walk totally
terminates in a found entry (carrying the requested statement id) or in
not-found — and `checkStatementExecuted` never reports the assertion
failure on such chains; conversely a not-found result can only arise when
every entry of the chain has a statement id, so an id-less entry produces
the fatal assertion failure, never not-found. -/
theorem checkStatementExecuted_walk_spec :
    (∀ (stmtId : StmtId) (chain : List OplogEntry),
      (∀ e ∈ chain, e.statementId.isSome = true) →
        walkHistory stmtId chain ≠ .invariantFailure ∧
        ((∃ e, walkHistory stmtId chain = .found e ∧
            e.statementId = some stmtId) ∨
          walkHistory stmtId chain = .notFound)) ∧
    (∀ (stmtId : StmtId) (chain : List OplogEntry),
      walkHistory stmtId chain = .notFound →
        ∀ e ∈ chain, e.statementId.isSome = true) ∧
    (∀ (s : Session) (n : TxnNumber) (stmtId : StmtId)
        (history : Timestamp → List OplogEntry),
      (∀ ts, ∀ e ∈ history ts, e.statementId.isSome = true) →
        checkStatementExecuted s n stmtId history ≠ .ok .invariantFailure) := by
  refine ⟨fun stmtId chain hall => walkHistory_all_some stmtId chain hall,
    fun stmtId chain hnf => walkHistory_notFound_all_some stmtId chain hnf,
    fun s n stmtId history hall => ?_⟩
  unfold checkStatementExecuted
  cases checkValid s with
  | some e => simp
  | none =>
    cases checkIsActiveTransaction s n with
    | some e => simp
    | none =>
      cases hrec : s.lastWrittenSessionRecord with
      | none => simp
      | some r =>
        by_cases ht : r.txnNum ≠ n
        · simp [ht]
        · simp only [ht, if_false]
          intro hok
          exact absurd (Except.ok.inj hok)
            (walkHistory_all_some stmtId (history r.lastWriteOpTimeTs)
              (hall r.lastWriteOpTimeTs)).1

/-- Witness for C10 at concrete inputs: an all-ids chain never hits the
assertion, a not-found walk certifies a visited entry's id, and a
concrete `checkStatementExecuted` call on an all-ids history never
reports the assertion failure. -/
theorem checkStatementExecuted_walk_spec_witness :
    walkHistory 2 [⟨some 1, 0⟩, ⟨some 2, 1⟩] ≠ .invariantFailure ∧
    (⟨some 1, 0⟩ : OplogEntry).statementId.isSome = true ∧
    checkStatementExecuted sessionValidAt5 5 0 (fun _ => [⟨some 1, 0⟩]) ≠
      .ok .invariantFailure :=
  ⟨(checkStatementExecuted_walk_spec.1 2 [⟨some 1, 0⟩, ⟨some 2, 1⟩] (by decide)).1,
   checkStatementExecuted_walk_spec.2.1 5 [⟨some 1, 0⟩, ⟨some 2, 1⟩] (by decide)
     ⟨some 1, 0⟩ (by decide),
   checkStatementExecuted_walk_spec.2.2 sessionValidAt5 5 0 (fun _ => [⟨some 1, 0⟩])
     (fun _ =>
       (by decide :
         ∀ e ∈ [(⟨some 1, 0⟩ : OplogEntry)], e.statementId.isSome = true))⟩

end SessionCacheSpec
